import Mathlib

/-!
Verification of the OSC99 packet engine (src/Osc99/OscCommon.c and
src/Osc99/OscPacket.c): the classifier, the packet lifecycle operations and
the recursive deconstruction / dispatch algorithm of OscPacketProcessMessages.

The message- and bundle-level codecs (OscMessage.c / OscBundle.c) are external
collaborators of this core; the engine is parameterized over their behaviour
through the Collabs structure below.  Byte spans are lists of byte values
(Nat); the C out-parameter idiom is rendered as returned tuples, and the
handler function pointer as a Boolean attached-flag plus an explicit trace of
the invocations the engine performs (time tag, message), in order.  The
engine also records, in order, every span it hands to the classifier, so that
the guard ordering of DeconstructContents is observable.
-/

/-- Error codes.  OscError.h is not part of the packet-engine sources;
modelled from the spec: the closed taxonomy of section 7, with `other`
standing for any collaborator-originated code propagated verbatim. -/
inductive OscError where
  | none
  | callbackFunctionUndefined
  | packetSizeTooLarge
  | contentsEmpty
  | invalidContents
  | other (code : Nat)
deriving DecidableEq, Repr

/-- A 64-bit OSC time tag; its arithmetic is out of scope, so it is an opaque
wrapped value. -/
structure OscTimeTag where
  value : Nat
deriving DecidableEq, Repr

/-- A decoded OSC message.  Its internal structure (address pattern, type
tags, arguments) is out of scope for the packet engine, which only forwards
it to the handler, so it is an opaque wrapped value. -/
structure OscMessage where
  val : Nat
deriving DecidableEq, Repr

/-- OscCommon.c OscContentsIsMessage: reads the first byte of the contents
and compares it with the character / (byte 47).  The C reads one byte
unconditionally; the model reads a default byte 0 on an empty span (where
the C access would be out of bounds -- the engine never does this, see the
classifier-span theorem). -/
def OscContentsIsMessage (oscContents : List Nat) : Bool :=
  oscContents.headD 0 == 47

/-- OscCommon.c OscContentsIsBundle: reads the first byte of the contents
and compares it with the character # (byte 35). -/
def OscContentsIsBundle (oscContents : List Nat) : Bool :=
  oscContents.headD 0 == 35

/-- The decoded state that OscBundleInitialiseFromCharArray establishes, as
the engine observes it: the bundle's time tag, and the successive results of
the OscBundleIsBundleElementAvailable / OscBundleGetBundleElement iteration,
each an error code together with the element's contents span.  An empty list
means no element is available. -/
structure OscBundle where
  oscTimeTag : OscTimeTag
  elements : List (OscError × List Nat)
deriving DecidableEq, Repr

/-- A handler invocation as the engine performs it: the time tag passed
(NULL rendered as Option.none) and the decoded message. -/
abbrev Event := Option OscTimeTag × OscMessage

/-- Result of a deconstruction: the returned error code, the trace of
handler invocations, and the trace of spans handed to the classifier. -/
abbrev DeconRes := OscError × List Event × List (List Nat)

/-- The external collaborators (OscMessage.c / OscBundle.c are not part of
the packet-engine sources).  Modelled from the spec: section 6 gives their
contracts; decode and encode operations return an error code together with
their outputs, in the C style where the engine checks the code against
OscErrorNone.  The `shrink` field is the structural contract of section 4.3:
each bundle element successfully produced by the iterator is a strictly
smaller span of the buffer than the bundle contents it came from. -/
structure Collabs where
  oscMessageInitialiseFromCharArray : List Nat → OscError × OscMessage
  oscBundleInitialiseFromCharArray : List Nat → OscError × OscBundle
  oscMessageToCharArray : List Nat → OscError × List Nat
  oscBundleToCharArray : List Nat → OscError × List Nat
  shrink : ∀ c, (oscBundleInitialiseFromCharArray c).1 = OscError.none →
    ∀ el ∈ (oscBundleInitialiseFromCharArray c).2.elements,
      el.1 = OscError.none → el.2.length < c.length

/-- OscCommon.h is not part of the packet-engine sources; modelled from the
spec: MAX_PACKET_SIZE is a fixed compile-time ceiling shared by the encode
and decode paths (the library default, sized for a UDP payload). -/
def MAX_OSC_PACKET_SIZE : Nat := 1472

/-- OscPacket.h packet structure: a byte buffer of capacity
MAX_OSC_PACKET_SIZE, its current size, and the optional ProcessMessage
handler, rendered as an attached-flag since the engine only compares the
pointer against NULL and otherwise treats the handler as opaque. -/
structure OscPacket where
  contents : List Nat
  size : Nat
  processMessage : Bool

/-- OscPacket.c OscPacketInitialise: sets size to 0 and clears the handler. -/
def OscPacketInitialise (oscPacket : OscPacket) : OscPacket :=
  { oscPacket with size := 0, processMessage := false }

/-- The while loop of OscPacketInitialiseFromCharArray: while
(size < sourceSize) copy source[size] into contents[size] and increment
size.  Returns the updated buffer and size. -/
def writeLoop (buf : List Nat) (source : List Nat) (size sourceSize : Nat) :
    List Nat × Nat :=
  if size < sourceSize then
    writeLoop (buf.set size (source.getD size 0)) source (size + 1) sourceSize
  else (buf, size)
termination_by sourceSize - size

/-- OscPacket.c OscPacketInitialiseFromCharArray: sets size to 0, rejects
sourceSize > MAX_OSC_PACKET_SIZE with PacketSizeTooLarge, otherwise copies
the source bytes one at a time, clears the handler and succeeds. -/
def OscPacketInitialiseFromCharArray (oscPacket : OscPacket)
    (source : List Nat) (sourceSize : Nat) : OscError × OscPacket :=
  let p := { oscPacket with size := 0 }
  if sourceSize > MAX_OSC_PACKET_SIZE then
    (OscError.packetSizeTooLarge, p)
  else
    let r := writeLoop p.contents source p.size sourceSize
    (OscError.none,
      { p with contents := r.1, size := r.2, processMessage := false })

/-- OscPacket.c OscPacketInitialiseFromContents: clears the handler, then
classifies the contents and delegates to the matching encoding collaborator
(which writes the packet buffer and size; modelled from the spec: on an
encoding error the packet's length is left at 0 and no partial buffer is
exposed); contents that classify as neither fail with InvalidContents. -/
def OscPacketInitialiseFromContents (C : Collabs) (oscPacket : OscPacket)
    (oscContents : List Nat) : OscError × OscPacket :=
  let p := { oscPacket with processMessage := false }
  if OscContentsIsMessage oscContents then
    let r := C.oscMessageToCharArray oscContents
    if r.1 = OscError.none then
      (OscError.none,
        { p with contents := r.2 ++ p.contents.drop r.2.length,
                 size := r.2.length })
    else (r.1, { p with size := 0 })
  else if OscContentsIsBundle oscContents then
    let r := C.oscBundleToCharArray oscContents
    if r.1 = OscError.none then
      (OscError.none,
        { p with contents := r.2 ++ p.contents.drop r.2.length,
                 size := r.2.length })
    else (r.1, { p with size := 0 })
  else (OscError.invalidContents, p)

mutual

/-- OscPacket.c DeconstructContents: rejects an empty contents span with
ContentsEmpty; decodes and dispatches a message span, passing the current
time tag to the handler; decodes a bundle span and iterates its elements
with the bundle's own time tag; anything else is InvalidContents.  Returns
the error code, the handler-invocation trace, and the spans handed to the
classifier. -/
def DeconstructContents (C : Collabs) (oscTimeTag : Option OscTimeTag)
    (oscContents : List Nat) : DeconRes :=
  if oscContents.length = 0 then
    (OscError.contentsEmpty, [], [])
  else if OscContentsIsMessage oscContents then
    let r := C.oscMessageInitialiseFromCharArray oscContents
    if r.1 = OscError.none then
      (OscError.none, [(oscTimeTag, r.2)], [oscContents])
    else
      (r.1, [], [oscContents])
  else if OscContentsIsBundle oscContents then
    let r := C.oscBundleInitialiseFromCharArray oscContents
    if he : r.1 = OscError.none then
      let res := DeconstructElements C r.2.oscTimeTag oscContents.length
        r.2.elements
        (fun el hel hok => C.shrink oscContents he el hel hok)
      (res.1, res.2.1, oscContents :: res.2.2)
    else
      (r.1, [], [oscContents])
  else
    (OscError.invalidContents, [], [oscContents])
termination_by (oscContents.length + 1, 0)

/-- The do-while loop of the bundle case of DeconstructContents: while an
element is available, fetch it (propagating a fetch error immediately) and
recursively deconstruct it with the bundle's time tag (propagating its error
immediately, together with the trace accumulated so far).  The hypothesis
carries the collaborator contract that each element span is strictly smaller
than the enclosing bundle span, which bounds the recursion. -/
def DeconstructElements (C : Collabs) (tag : OscTimeTag) (bound : Nat)
    (elems : List (OscError × List Nat))
    (h : ∀ el ∈ elems, el.1 = OscError.none → el.2.length < bound) :
    DeconRes :=
  match elems with
  | [] => (OscError.none, [], [])
  | el :: rest =>
    if hok : el.1 = OscError.none then
      let res := DeconstructContents C (some tag) el.2
      if res.1 = OscError.none then
        let res2 := DeconstructElements C tag bound rest
          (fun x hx => h x (List.mem_cons_of_mem _ hx))
        (res2.1, res.2.1 ++ res2.2.1, res.2.2 ++ res2.2.2)
      else res
    else
      (el.1, [], [])
termination_by (bound, elems.length)
decreasing_by
· have hlt := h el (List.mem_cons_self el rest) hok
  rcases Nat.lt_or_ge (el.2.length + 1) bound with hc | hc
  · exact Prod.Lex.left _ _ hc
  · have hb : bound = el.2.length + 1 := by omega
    subst hb
    exact Prod.Lex.right _ (Nat.succ_pos _)
· exact Prod.Lex.right _ (Nat.lt_succ_self _)

end

/-- OscPacket.c OscPacketProcessMessages: fails with
CallbackFunctionUndefined if no handler is attached, otherwise deconstructs
the packet's first `size` buffer bytes with a NULL time tag.  The packet is
threaded through explicitly; the C function never writes to it. -/
def OscPacketProcessMessages (C : Collabs) (oscPacket : OscPacket) :
    DeconRes × OscPacket :=
  if oscPacket.processMessage = false then
    ((OscError.callbackFunctionUndefined, [], []), oscPacket)
  else
    (DeconstructContents C Option.none (oscPacket.contents.take oscPacket.size),
      oscPacket)

/-! ### Unfolding lemmas for the recursive deconstruction -/

theorem DC_empty (C : Collabs) (tt : Option OscTimeTag) (c : List Nat)
    (h0 : c.length = 0) :
    DeconstructContents C tt c = (OscError.contentsEmpty, [], []) := by
  rw [DeconstructContents]
  simp [h0]

theorem DC_msg_ok (C : Collabs) (tt : Option OscTimeTag) (c : List Nat)
    (h0 : c.length ≠ 0) (hm : OscContentsIsMessage c = true)
    (hd : (C.oscMessageInitialiseFromCharArray c).1 = OscError.none) :
    DeconstructContents C tt c =
      (OscError.none, [(tt, (C.oscMessageInitialiseFromCharArray c).2)], [c]) := by
  rw [DeconstructContents]
  simp [h0, hm, hd]

theorem DC_msg_err (C : Collabs) (tt : Option OscTimeTag) (c : List Nat)
    (h0 : c.length ≠ 0) (hm : OscContentsIsMessage c = true)
    (hd : (C.oscMessageInitialiseFromCharArray c).1 ≠ OscError.none) :
    DeconstructContents C tt c =
      ((C.oscMessageInitialiseFromCharArray c).1, [], [c]) := by
  rw [DeconstructContents]
  simp [h0, hm, hd]

theorem DC_bundle_ok (C : Collabs) (tt : Option OscTimeTag) (c : List Nat)
    (h0 : c.length ≠ 0) (hm : OscContentsIsMessage c = false)
    (hb : OscContentsIsBundle c = true)
    (hd : (C.oscBundleInitialiseFromCharArray c).1 = OscError.none) :
    DeconstructContents C tt c =
      (let res := DeconstructElements C
        (C.oscBundleInitialiseFromCharArray c).2.oscTimeTag c.length
        (C.oscBundleInitialiseFromCharArray c).2.elements
        (fun el hel hok => C.shrink c hd el hel hok)
       (res.1, res.2.1, c :: res.2.2)) := by
  rw [DeconstructContents]
  simp [h0, hm, hb, hd]

theorem DC_bundle_err (C : Collabs) (tt : Option OscTimeTag) (c : List Nat)
    (h0 : c.length ≠ 0) (hm : OscContentsIsMessage c = false)
    (hb : OscContentsIsBundle c = true)
    (hd : (C.oscBundleInitialiseFromCharArray c).1 ≠ OscError.none) :
    DeconstructContents C tt c =
      ((C.oscBundleInitialiseFromCharArray c).1, [], [c]) := by
  rw [DeconstructContents]
  simp [h0, hm, hb, hd]

theorem DC_invalid (C : Collabs) (tt : Option OscTimeTag) (c : List Nat)
    (h0 : c.length ≠ 0) (hm : OscContentsIsMessage c = false)
    (hb : OscContentsIsBundle c = false) :
    DeconstructContents C tt c = (OscError.invalidContents, [], [c]) := by
  rw [DeconstructContents]
  simp [h0, hm, hb]

theorem DE_nil (C : Collabs) (tag : OscTimeTag) (bound : Nat)
    (h : ∀ el ∈ ([] : List (OscError × List Nat)), el.1 = OscError.none →
      el.2.length < bound) :
    DeconstructElements C tag bound [] h = (OscError.none, [], []) := by
  rw [DeconstructElements]

theorem DE_cons_getErr (C : Collabs) (tag : OscTimeTag) (bound : Nat)
    (el : OscError × List Nat) (rest : List (OscError × List Nat))
    (h : ∀ x ∈ el :: rest, x.1 = OscError.none → x.2.length < bound)
    (hget : el.1 ≠ OscError.none) :
    DeconstructElements C tag bound (el :: rest) h = (el.1, [], []) := by
  rw [DeconstructElements]
  simp [hget]

theorem DE_cons_ok_err (C : Collabs) (tag : OscTimeTag) (bound : Nat)
    (el : OscError × List Nat) (rest : List (OscError × List Nat))
    (h : ∀ x ∈ el :: rest, x.1 = OscError.none → x.2.length < bound)
    (hget : el.1 = OscError.none)
    (hrec : (DeconstructContents C (some tag) el.2).1 ≠ OscError.none) :
    DeconstructElements C tag bound (el :: rest) h =
      DeconstructContents C (some tag) el.2 := by
  rw [DeconstructElements]
  simp [hget, hrec]

theorem DE_cons_ok_ok (C : Collabs) (tag : OscTimeTag) (bound : Nat)
    (el : OscError × List Nat) (rest : List (OscError × List Nat))
    (h : ∀ x ∈ el :: rest, x.1 = OscError.none → x.2.length < bound)
    (hget : el.1 = OscError.none)
    (hrec : (DeconstructContents C (some tag) el.2).1 = OscError.none) :
    DeconstructElements C tag bound (el :: rest) h =
      (let res := DeconstructContents C (some tag) el.2
       let res2 := DeconstructElements C tag bound rest
         (fun x hx => h x (List.mem_cons_of_mem _ hx))
       (res2.1, res.2.1 ++ res2.2.1, res.2.2 ++ res2.2.2)) := by
  rw [DeconstructElements]
  simp [hget, hrec]

/-! ### Observables of the bundle-element loop -/

/-- The do-while loop passes through element el without returning early:
the fetch succeeded and the recursive deconstruction of its span
returned OscErrorNone. -/
def elemOk (C : Collabs) (tag : OscTimeTag) (el : OscError × List Nat) :
    Prop :=
  el.1 = OscError.none ∧
    (DeconstructContents C (some tag) el.2).1 = OscError.none

instance (C : Collabs) (tag : OscTimeTag) (el : OscError × List Nat) :
    Decidable (elemOk C tag el) := by
  unfold elemOk
  infer_instance

/-- The error code the loop returns when it stops at element el: the fetch
error if fetching failed, otherwise the recursive deconstruction's error. -/
def elemErr (C : Collabs) (tag : OscTimeTag) (el : OscError × List Nat) :
    OscError :=
  if el.1 = OscError.none then (DeconstructContents C (some tag) el.2).1
  else el.1

/-- The handler invocations element el contributes to the trace. -/
def elemTrace (C : Collabs) (tag : OscTimeTag) (el : OscError × List Nat) :
    List Event :=
  if el.1 = OscError.none then (DeconstructContents C (some tag) el.2).2.1
  else []

/-- The classifier reads element el contributes. -/
def elemSpans (C : Collabs) (tag : OscTimeTag) (el : OscError × List Nat) :
    List (List Nat) :=
  if el.1 = OscError.none then (DeconstructContents C (some tag) el.2).2.2
  else []

/-- A prefix of elements the loop passes through contributes its traces in
order, and the loop continues on the remaining elements. -/
theorem DE_append_ok (C : Collabs) (tag : OscTimeTag) (bound : Nat)
    (els₁ els₂ : List (OscError × List Nat))
    (h : ∀ x ∈ els₁ ++ els₂, x.1 = OscError.none → x.2.length < bound)
    (hall : ∀ e ∈ els₁, elemOk C tag e) :
    DeconstructElements C tag bound (els₁ ++ els₂) h =
      (let r := DeconstructElements C tag bound els₂
        (fun x hx => h x (List.mem_append_right _ hx))
       (r.1, (els₁.map (elemTrace C tag)).flatten ++ r.2.1,
        (els₁.map (elemSpans C tag)).flatten ++ r.2.2)) := by
  induction els₁ with
  | nil => rfl
  | cons e els₁ ih =>
    have he := hall e (List.mem_cons_self e els₁)
    obtain ⟨hget, hrec⟩ := he
    refine Eq.trans (DE_cons_ok_ok C tag bound e (els₁ ++ els₂)
      (fun x hx => h x hx) hget hrec) ?_
    have ih2 := ih (fun x hx => h x (List.mem_cons_of_mem _ hx))
      (fun x hx => hall x (List.mem_cons_of_mem _ hx))
    simp [ih2, elemTrace, elemSpans, hget]

/-- The loop stops at a failing head element, returning that element's error
and contributing only that element's trace. -/
theorem DE_fail_head (C : Collabs) (tag : OscTimeTag) (bound : Nat)
    (el : OscError × List Nat) (rest : List (OscError × List Nat))
    (h : ∀ x ∈ el :: rest, x.1 = OscError.none → x.2.length < bound)
    (hfail : ¬ elemOk C tag el) :
    (DeconstructElements C tag bound (el :: rest) h).1 = elemErr C tag el ∧
      (DeconstructElements C tag bound (el :: rest) h).2.1 =
        elemTrace C tag el := by
  by_cases hget : el.1 = OscError.none
  · have hrec : (DeconstructContents C (some tag) el.2).1 ≠ OscError.none :=
      fun hr => hfail ⟨hget, hr⟩
    rw [DE_cons_ok_err C tag bound el rest h hget hrec]
    simp [elemErr, elemTrace, hget]
  · rw [DE_cons_getErr C tag bound el rest h hget]
    simp [elemErr, elemTrace, hget]

/-- A loop all of whose elements pass through succeeds, with the traces of
the elements concatenated in order. -/
theorem DE_all_ok (C : Collabs) (tag : OscTimeTag) (bound : Nat)
    (elems : List (OscError × List Nat))
    (h : ∀ x ∈ elems, x.1 = OscError.none → x.2.length < bound)
    (hall : ∀ e ∈ elems, elemOk C tag e) :
    DeconstructElements C tag bound elems h =
      (OscError.none, (elems.map (elemTrace C tag)).flatten,
        (elems.map (elemSpans C tag)).flatten) := by
  induction elems with
  | nil => rw [DE_nil]; rfl
  | cons e elems ih =>
    obtain ⟨hget, hrec⟩ := hall e (List.mem_cons_self e elems)
    rw [DE_cons_ok_ok C tag bound e elems h hget hrec]
    have ih2 := ih (fun x hx => h x (List.mem_cons_of_mem _ hx))
      (fun x hx => hall x (List.mem_cons_of_mem _ hx))
    simp [ih2, elemTrace, elemSpans, hget]

/-! ### Characterisation of the byte-copy loop -/

theorem writeLoop_length (buf source : List Nat) (size sourceSize : Nat) :
    (writeLoop buf source size sourceSize).1.length = buf.length := by
  induction buf, source, size, sourceSize using writeLoop.induct with
  | case1 buf source size sourceSize hlt ih =>
    rw [writeLoop, if_pos hlt]
    simpa using ih
  | case2 buf source size sourceSize hlt =>
    rw [writeLoop, if_neg hlt]

theorem writeLoop_size (buf source : List Nat) (size sourceSize : Nat) :
    (writeLoop buf source size sourceSize).2 = max size sourceSize := by
  induction buf, source, size, sourceSize using writeLoop.induct with
  | case1 buf source size sourceSize hlt ih =>
    rw [writeLoop, if_pos hlt, ih]
    omega
  | case2 buf source size sourceSize hlt =>
    rw [writeLoop, if_neg hlt]
    simp
    omega

theorem writeLoop_getElem (buf source : List Nat) (size sourceSize : Nat)
    (i : Nat) :
    (writeLoop buf source size sourceSize).1[i]? =
      if size ≤ i ∧ i < sourceSize ∧ i < buf.length then
        some (source.getD i 0)
      else buf[i]? := by
  induction buf, source, size, sourceSize using writeLoop.induct with
  | case1 buf source size sourceSize hlt ih =>
    rw [writeLoop, if_pos hlt, ih]
    simp only [List.length_set]
    by_cases hi : i = size
    · subst hi
      rw [if_neg (by omega)]
      by_cases hib : i < buf.length
      · rw [if_pos ⟨le_refl i, hlt, hib⟩]
        exact List.getElem?_set_eq_of_lt _ hib
      · rw [if_neg (fun hcon => hib hcon.2.2),
          List.set_eq_of_length_le (by omega)]
    · rw [List.getElem?_set_ne (fun hsi => hi hsi.symm)]
      by_cases hc : size ≤ i ∧ i < sourceSize ∧ i < buf.length
      · rw [if_pos ⟨by omega, hc.2.1, hc.2.2⟩, if_pos hc]
      · rw [if_neg (fun hcon => hc ⟨by omega, hcon.2⟩), if_neg hc]
  | case2 buf source size sourceSize hlt =>
    rw [writeLoop, if_neg hlt, if_neg (by omega)]

/-! ### Fuel-indexed mirror of the recursion (explicit termination bound) -/

/-- The element loop with the recursive deconstruction abstracted as `rec`,
which returns Option.none when its nesting budget is exhausted. -/
def ElementsFuel (rec : List Nat → Option DeconRes) :
    List (OscError × List Nat) → Option DeconRes
  | [] => some (OscError.none, [], [])
  | el :: rest =>
    if el.1 = OscError.none then
      match rec el.2 with
      | Option.none => Option.none
      | some res =>
        if res.1 = OscError.none then
          match ElementsFuel rec rest with
          | Option.none => Option.none
          | some res2 =>
            some (res2.1, res.2.1 ++ res2.2.1, res.2.2 ++ res2.2.2)
        else some res
    else some (el.1, [], [])

/-- Fuel-indexed mirror of DeconstructContents: one unit of fuel per
recursion level (one level per bundle nesting), Option.none when the
nesting exceeds the fuel. -/
def DeconstructFuel (C : Collabs) : Nat → Option OscTimeTag → List Nat →
    Option DeconRes
  | 0, _, _ => Option.none
  | fuel + 1, oscTimeTag, oscContents =>
    if oscContents.length = 0 then some (OscError.contentsEmpty, [], [])
    else if OscContentsIsMessage oscContents then
      let r := C.oscMessageInitialiseFromCharArray oscContents
      if r.1 = OscError.none then
        some (OscError.none, [(oscTimeTag, r.2)], [oscContents])
      else some (r.1, [], [oscContents])
    else if OscContentsIsBundle oscContents then
      let r := C.oscBundleInitialiseFromCharArray oscContents
      if r.1 = OscError.none then
        match ElementsFuel
            (fun s => DeconstructFuel C fuel (some r.2.oscTimeTag) s)
            r.2.elements with
        | Option.none => Option.none
        | some res => some (res.1, res.2.1, oscContents :: res.2.2)
      else some (r.1, [], [oscContents])
    else some (OscError.invalidContents, [], [oscContents])

/-- The fueled element loop agrees with the total one whenever the
abstracted recursion agrees on every successfully fetched element. -/
theorem ElementsFuel_eq (C : Collabs) (tag : OscTimeTag) (bound : Nat)
    (rec : List Nat → Option DeconRes)
    (elems : List (OscError × List Nat))
    (h : ∀ el ∈ elems, el.1 = OscError.none → el.2.length < bound)
    (hrec : ∀ el ∈ elems, el.1 = OscError.none →
      rec el.2 = some (DeconstructContents C (some tag) el.2)) :
    ElementsFuel rec elems =
      some (DeconstructElements C tag bound elems h) := by
  induction elems with
  | nil => rw [ElementsFuel, DE_nil]
  | cons el rest ih =>
    by_cases hget : el.1 = OscError.none
    · rw [ElementsFuel, if_pos hget,
        hrec el (List.mem_cons_self el rest) hget]
      by_cases hr : (DeconstructContents C (some tag) el.2).1 = OscError.none
      · rw [DE_cons_ok_ok C tag bound el rest h hget hr]
        have ih2 := ih (fun x hx => h x (List.mem_cons_of_mem _ hx))
          (fun x hx hx1 => hrec x (List.mem_cons_of_mem _ hx) hx1)
        simp [hr, ih2]
      · rw [DE_cons_ok_err C tag bound el rest h hget hr]
        simp [hr]
    · rw [ElementsFuel, if_neg hget, DE_cons_getErr C tag bound el rest h hget]

/-- Nesting-depth bound: with fuel exceeding the span length, the fueled
recursion never exhausts and computes exactly the total deconstruction. -/
theorem DeconstructFuel_adequate (C : Collabs) :
    ∀ fuel (tt : Option OscTimeTag) (c : List Nat), c.length < fuel →
      DeconstructFuel C fuel tt c = some (DeconstructContents C tt c) := by
  intro fuel
  induction fuel with
  | zero => intro tt c h; omega
  | succ fuel ih =>
    intro tt c hc
    by_cases h0 : c.length = 0
    · rw [DC_empty C tt c h0]
      simp [DeconstructFuel, h0]
    · by_cases hm : OscContentsIsMessage c
      · by_cases hd : (C.oscMessageInitialiseFromCharArray c).1 = OscError.none
        · rw [DC_msg_ok C tt c h0 hm hd]
          simp [DeconstructFuel, h0, hm, hd]
        · rw [DC_msg_err C tt c h0 hm hd]
          simp [DeconstructFuel, h0, hm, hd]
      · by_cases hb : OscContentsIsBundle c
        · by_cases hd :
            (C.oscBundleInitialiseFromCharArray c).1 = OscError.none
          · have hm2 : OscContentsIsMessage c = false := by
              simpa using hm
            rw [DC_bundle_ok C tt c h0 hm2 hb hd]
            have hloop := ElementsFuel_eq C
              (C.oscBundleInitialiseFromCharArray c).2.oscTimeTag c.length
              (fun s => DeconstructFuel C fuel
                (some (C.oscBundleInitialiseFromCharArray c).2.oscTimeTag) s)
              (C.oscBundleInitialiseFromCharArray c).2.elements
              (fun el hel hok => C.shrink c hd el hel hok)
              (fun el hel hok => ih _ el.2
                (by have := C.shrink c hd el hel hok; omega))
            simp [DeconstructFuel, h0, hm, hb, hd, hloop]
          · rw [DC_bundle_err C tt c h0 (by simpa using hm) hb hd]
            simp [DeconstructFuel, h0, hm, hb, hd]
        · rw [DC_invalid C tt c h0 (by simpa using hm) (by simpa using hb)]
          simp [DeconstructFuel, h0, hm, hb]

/-- Every classifier read performed by the element loop originates from the
recursive deconstruction of some successfully fetched element. -/
theorem DE_spans_from_elements (C : Collabs) (tag : OscTimeTag) (bound : Nat)
    (elems : List (OscError × List Nat))
    (h : ∀ el ∈ elems, el.1 = OscError.none → el.2.length < bound) :
    ∀ s ∈ (DeconstructElements C tag bound elems h).2.2,
      ∃ el ∈ elems, el.1 = OscError.none ∧
        s ∈ (DeconstructContents C (some tag) el.2).2.2 := by
  induction elems with
  | nil => rw [DE_nil]; simp
  | cons el rest ih =>
    by_cases hget : el.1 = OscError.none
    · by_cases hr : (DeconstructContents C (some tag) el.2).1 = OscError.none
      · rw [DE_cons_ok_ok C tag bound el rest h hget hr]
        intro s hs
        simp only [List.mem_append] at hs
        rcases hs with hs | hs
        · exact ⟨el, List.mem_cons_self el rest, hget, hs⟩
        · obtain ⟨x, hx, hx1, hx2⟩ :=
            ih (fun y hy => h y (List.mem_cons_of_mem _ hy)) s hs
          exact ⟨x, List.mem_cons_of_mem _ hx, hx1, hx2⟩
      · rw [DE_cons_ok_err C tag bound el rest h hget hr]
        intro s hs
        exact ⟨el, List.mem_cons_self el rest, hget, hs⟩
    · rw [DE_cons_getErr C tag bound el rest h hget]
      simp

/-- Every span the deconstruction hands to the classifier is nonempty: the
size-zero guard runs before any classification, at every recursion level. -/
theorem DC_spans_pos_aux :
    ∀ n (C : Collabs) (tt : Option OscTimeTag) (c : List Nat),
      c.length ≤ n →
      ∀ s ∈ (DeconstructContents C tt c).2.2, 1 ≤ s.length := by
  intro n
  induction n using Nat.strong_induction_on with
  | _ n ihn =>
    intro C tt c hc s hs
    by_cases h0 : c.length = 0
    · rw [DC_empty C tt c h0] at hs
      simp at hs
    · by_cases hm : OscContentsIsMessage c
      · by_cases hd : (C.oscMessageInitialiseFromCharArray c).1 = OscError.none
        · rw [DC_msg_ok C tt c h0 hm hd] at hs
          simp at hs
          subst hs
          omega
        · rw [DC_msg_err C tt c h0 hm hd] at hs
          simp at hs
          subst hs
          omega
      · by_cases hb : OscContentsIsBundle c
        · by_cases hd :
            (C.oscBundleInitialiseFromCharArray c).1 = OscError.none
          · rw [DC_bundle_ok C tt c h0 (by simpa using hm) hb hd] at hs
            simp only [List.mem_cons] at hs
            rcases hs with hs | hs
            · subst hs; omega
            · obtain ⟨el, hel, hok, hsel⟩ := DE_spans_from_elements C
                (C.oscBundleInitialiseFromCharArray c).2.oscTimeTag c.length
                (C.oscBundleInitialiseFromCharArray c).2.elements
                (fun x hx hx1 => C.shrink c hd x hx hx1) s hs
              have hlt := C.shrink c hd el hel hok
              have hn0 : c.length - 1 < n := by omega
              exact ihn (c.length - 1) hn0 C
                (some (C.oscBundleInitialiseFromCharArray c).2.oscTimeTag)
                el.2 (by omega) s hsel
          · rw [DC_bundle_err C tt c h0 (by simpa using hm) hb hd] at hs
            simp at hs
            subst hs
            omega
        · rw [DC_invalid C tt c h0 (by simpa using hm) (by simpa using hb)]
            at hs
          simp at hs
          subst hs
          omega

/-- Rewriting the element list of the loop (the proof argument is
transported along). -/
theorem DE_congr (C : Collabs) (tag : OscTimeTag) (bound : Nat)
    (l1 l2 : List (OscError × List Nat)) (hl : l1 = l2)
    (h1 : ∀ el ∈ l1, el.1 = OscError.none → el.2.length < bound)
    (h2 : ∀ el ∈ l2, el.1 = OscError.none → el.2.length < bound) :
    DeconstructElements C tag bound l1 h1 =
      DeconstructElements C tag bound l2 h2 := by
  subst hl
  rfl

/-! ### Claim theorems -/

/-- C3: every call of the recursive deconstruction on a zero-size contents
span -- top-level or recursive -- returns ContentsEmpty, with no handler
invocation for that span (and no classifier read). -/
theorem c3_empty_span_rejected (C : Collabs) (tt : Option OscTimeTag)
    (c : List Nat) (h0 : c.length = 0) :
    DeconstructContents C tt c = (OscError.contentsEmpty, [], []) :=
  DC_empty C tt c h0

/-- C4: with no handler attached, ProcessMessages returns
CallbackFunctionUndefined, produces no handler invocation and no classifier
read, leaves the packet unchanged, and its result does not depend on the
collaborators (none is invoked). -/
theorem c4_callback_undefined (C : Collabs) (p : OscPacket)
    (h : p.processMessage = false) :
    OscPacketProcessMessages C p =
      ((OscError.callbackFunctionUndefined, [], []), p) := by
  simp [OscPacketProcessMessages, h]

/-- C8: every span the deconstruction hands to the classifier has at least
one byte: the size-zero guard precedes classification in every call, so the
first-byte read is always in bounds. -/
theorem c8_classifier_spans_nonempty (C : Collabs) (tt : Option OscTimeTag)
    (c : List Nat) :
    ∀ s ∈ (DeconstructContents C tt c).2.2, 1 ≤ s.length :=
  DC_spans_pos_aux c.length C tt c (le_refl _)

/-- C9: ProcessMessages leaves the packet's buffer and length unchanged,
whether it succeeds or fails: processing only reads the packet. -/
theorem c9_processing_preserves_packet (C : Collabs) (p : OscPacket) :
    ((OscPacketProcessMessages C p).2.contents = p.contents ∧
      (OscPacketProcessMessages C p).2.size = p.size) ∧
    (OscPacketProcessMessages C p).2 = p := by
  by_cases h : p.processMessage = false <;>
    simp [OscPacketProcessMessages, h]

/-- C10: InitialiseFromContents clears the handler reference
unconditionally, before classification: after the call the handler is
absent in every outcome, including InvalidContents and collaborator
encoding errors. -/
theorem c10_init_from_contents_clears_handler (C : Collabs) (p : OscPacket)
    (c : List Nat) :
    (OscPacketInitialiseFromContents C p c).2.processMessage = false := by
  unfold OscPacketInitialiseFromContents
  dsimp only
  split_ifs <;> rfl

/-- C5: InitialiseFromBytes succeeds exactly when sourceSize does not exceed
MAX_OSC_PACKET_SIZE.  On success the first sourceSize buffer bytes are the
source bytes verbatim, the rest of the buffer is untouched, the length
equals sourceSize and the handler is cleared; on failure it returns
PacketSizeTooLarge with the length left at 0 and everything else untouched.
No collaborator participates (the operation takes none). -/
theorem c5_init_from_bytes (p : OscPacket) (source : List Nat)
    (sourceSize : Nat) (hbuf : p.contents.length = MAX_OSC_PACKET_SIZE)
    (hsrc : sourceSize ≤ source.length) :
    (sourceSize ≤ MAX_OSC_PACKET_SIZE →
      (OscPacketInitialiseFromCharArray p source sourceSize).1 =
        OscError.none ∧
      (OscPacketInitialiseFromCharArray p source sourceSize).2.size =
        sourceSize ∧
      (OscPacketInitialiseFromCharArray p source
        sourceSize).2.processMessage = false ∧
      (∀ i, i < sourceSize →
        (OscPacketInitialiseFromCharArray p source sourceSize).2.contents[i]?
          = source[i]?) ∧
      (∀ i, sourceSize ≤ i →
        (OscPacketInitialiseFromCharArray p source sourceSize).2.contents[i]?
          = p.contents[i]?)) ∧
    (MAX_OSC_PACKET_SIZE < sourceSize →
      OscPacketInitialiseFromCharArray p source sourceSize =
        (OscError.packetSizeTooLarge, { p with size := 0 })) := by
  constructor
  · intro hle
    have hnot : ¬ sourceSize > MAX_OSC_PACKET_SIZE := by omega
    unfold OscPacketInitialiseFromCharArray
    dsimp only
    rw [if_neg hnot]
    refine ⟨rfl, ?_, rfl, ?_, ?_⟩
    · show (writeLoop p.contents source 0 sourceSize).2 = sourceSize
      rw [writeLoop_size]
      omega
    · intro i hi
      show (writeLoop p.contents source 0 sourceSize).1[i]? = source[i]?
      rw [writeLoop_getElem]
      rw [if_pos ⟨Nat.zero_le i, hi, by omega⟩]
      rw [List.getD_eq_getElem?_getD, List.getElem?_eq_getElem (by omega)]
      rfl
    · intro i hi
      show (writeLoop p.contents source 0 sourceSize).1[i]? = p.contents[i]?
      rw [writeLoop_getElem]
      rw [if_neg (by omega)]
  · intro hgt
    unfold OscPacketInitialiseFromCharArray
    dsimp only
    rw [if_pos hgt]

/-- ProcessMessages with a handler attached delegates to the deconstruction
of the packet's first `size` buffer bytes with a NULL time tag. -/
theorem PM_attached (C : Collabs) (p : OscPacket)
    (hpm : p.processMessage = true) :
    OscPacketProcessMessages C p =
      (DeconstructContents C Option.none (p.contents.take p.size), p) := by
  unfold OscPacketProcessMessages
  rw [if_neg (by simp [hpm])]

/-- Deconstructing a bundle span whose decoded elements all pass through
yields success and the concatenation of the elements' traces, each produced
with the bundle's own time tag (the incoming tag tt is not consulted). -/
theorem DC_bundle_elems (C : Collabs) (tt : Option OscTimeTag) (c : List Nat)
    (T : OscTimeTag) (els : List (OscError × List Nat))
    (h0 : c.length ≠ 0) (hm : OscContentsIsMessage c = false)
    (hb : OscContentsIsBundle c = true)
    (heq : C.oscBundleInitialiseFromCharArray c =
      (OscError.none, ⟨T, els⟩))
    (hall : ∀ e ∈ els, elemOk C T e) :
    (DeconstructContents C tt c).1 = OscError.none ∧
    (DeconstructContents C tt c).2.1 = (els.map (elemTrace C T)).flatten := by
  have hd : (C.oscBundleInitialiseFromCharArray c).1 = OscError.none := by
    rw [heq]
  rw [DC_bundle_ok C tt c h0 hm hb hd]
  have htag : (C.oscBundleInitialiseFromCharArray c).2.oscTimeTag = T := by
    rw [heq]
  have hels : (C.oscBundleInitialiseFromCharArray c).2.elements = els := by
    rw [heq]
  dsimp only
  rw [htag]
  rw [DE_congr C T c.length ((C.oscBundleInitialiseFromCharArray c).2.elements)
    els hels (fun el hel hok => C.shrink c hd el hel hok)
    (fun el hel hok => C.shrink c hd el (by rw [hels]; exact hel) hok)]
  rw [DE_all_ok C T c.length els
    (fun el hel hok => C.shrink c hd el (by rw [hels]; exact hel) hok) hall]
  exact ⟨rfl, rfl⟩

/-- C7: a packet holding a well-formed bundle with zero elements is
processed successfully (OscErrorNone) with zero handler invocations;
an element-less bundle is not an error, unlike a zero-byte span. -/
theorem c7_empty_bundle_succeeds (C : Collabs) (p : OscPacket)
    (hpm : p.processMessage = true) (c : List Nat) (T : OscTimeTag)
    (hc : p.contents.take p.size = c) (h0 : c.length ≠ 0)
    (hm : OscContentsIsMessage c = false) (hb : OscContentsIsBundle c = true)
    (heq : C.oscBundleInitialiseFromCharArray c =
      (OscError.none, ⟨T, []⟩)) :
    (OscPacketProcessMessages C p).1.1 = OscError.none ∧
    (OscPacketProcessMessages C p).1.2.1 = [] := by
  rw [PM_attached C p hpm, hc]
  have h := DC_bundle_elems C Option.none c T [] h0 hm hb heq (by simp)
  simpa using h

/-- C2: the handler receives the time tag of the nearest enclosing bundle:
a top-level message is delivered with an absent tag; a message directly
inside a bundle A is delivered with A's own decoded tag, and when A is
itself the single element of an enclosing bundle B the delivered tag is
still A's, not B's (A's tag overrides the outer context). -/
theorem c2_nearest_enclosing_tag (C : Collabs) (p : OscPacket)
    (hpm : p.processMessage = true) (c : List Nat)
    (hc : p.contents.take p.size = c) (h0 : c.length ≠ 0) :
    (OscContentsIsMessage c = true →
      (C.oscMessageInitialiseFromCharArray c).1 = OscError.none →
      (OscPacketProcessMessages C p).1.2.1 =
        [(Option.none, (C.oscMessageInitialiseFromCharArray c).2)]) ∧
    (∀ tA (d : List Nat),
      OscContentsIsMessage c = false → OscContentsIsBundle c = true →
      C.oscBundleInitialiseFromCharArray c =
        (OscError.none, ⟨tA, [(OscError.none, d)]⟩) →
      d.length ≠ 0 → OscContentsIsMessage d = true →
      (C.oscMessageInitialiseFromCharArray d).1 = OscError.none →
      (OscPacketProcessMessages C p).1.2.1 =
        [(some tA, (C.oscMessageInitialiseFromCharArray d).2)]) ∧
    (∀ tB tA (a d : List Nat),
      OscContentsIsMessage c = false → OscContentsIsBundle c = true →
      C.oscBundleInitialiseFromCharArray c =
        (OscError.none, ⟨tB, [(OscError.none, a)]⟩) →
      a.length ≠ 0 → OscContentsIsMessage a = false →
      OscContentsIsBundle a = true →
      C.oscBundleInitialiseFromCharArray a =
        (OscError.none, ⟨tA, [(OscError.none, d)]⟩) →
      d.length ≠ 0 → OscContentsIsMessage d = true →
      (C.oscMessageInitialiseFromCharArray d).1 = OscError.none →
      (OscPacketProcessMessages C p).1.2.1 =
        [(some tA, (C.oscMessageInitialiseFromCharArray d).2)]) := by
  rw [PM_attached C p hpm, hc]
  refine ⟨?_, ?_, ?_⟩
  · intro hm hd
    rw [DC_msg_ok C Option.none c h0 hm hd]
  · intro tA d hm hb heq hd0 hdm hdd
    have hmsg := DC_msg_ok C (some tA) d hd0 hdm hdd
    have h := DC_bundle_elems C Option.none c tA [(OscError.none, d)] h0 hm hb
      heq (by
        intro e he
        simp only [List.mem_singleton] at he
        subst he
        exact ⟨rfl, by rw [hmsg]⟩)
    rw [h.2]
    simp [elemTrace, hmsg]
  · intro tB tA a d hm hb heqB ha0 ham hab heqA hd0 hdm hdd
    have hmsg := DC_msg_ok C (some tA) d hd0 hdm hdd
    have hA := DC_bundle_elems C (some tB) a tA [(OscError.none, d)] ha0 ham
      hab heqA (by
        intro e he
        simp only [List.mem_singleton] at he
        subst he
        exact ⟨rfl, by rw [hmsg]⟩)
    have hB := DC_bundle_elems C Option.none c tB [(OscError.none, a)] h0 hm
      hb heqB (by
        intro e he
        simp only [List.mem_singleton] at he
        subst he
        exact ⟨rfl, hA.1⟩)
    rw [hB.2]
    simp only [elemTrace, if_pos rfl, List.map_cons, List.map_nil,
      List.flatten_cons, List.flatten_nil, List.append_nil]
    rw [hA.2]
    simp [elemTrace, hmsg]

/-- C1: processing a bundle is all-or-first-error: with a prefix of
elements that pass through, a failing element (fetch error, or any error
from its recursive deconstruction, including an empty sub-element or an
invalid leading byte), the walk returns that first error, the handler has
been invoked exactly for the messages dispatched before the failure (the
passing prefix and the failing element's partial trace), and the elements
after the failing one contribute nothing (the result does not depend on
them). -/
theorem c1_fail_fast (C : Collabs) (p : OscPacket)
    (hpm : p.processMessage = true) (c : List Nat)
    (hc : p.contents.take p.size = c) (h0 : c.length ≠ 0)
    (hm : OscContentsIsMessage c = false) (hb : OscContentsIsBundle c = true)
    (T : OscTimeTag) (els₁ : List (OscError × List Nat))
    (el : OscError × List Nat) (els₂ : List (OscError × List Nat))
    (heq : C.oscBundleInitialiseFromCharArray c =
      (OscError.none, ⟨T, els₁ ++ el :: els₂⟩))
    (hall : ∀ e ∈ els₁, elemOk C T e) (hfail : ¬ elemOk C T el) :
    (OscPacketProcessMessages C p).1.1 = elemErr C T el ∧
    (OscPacketProcessMessages C p).1.2.1 =
      (els₁.map (elemTrace C T)).flatten ++ elemTrace C T el := by
  rw [PM_attached C p hpm, hc]
  have hd : (C.oscBundleInitialiseFromCharArray c).1 = OscError.none := by
    rw [heq]
  have htag : (C.oscBundleInitialiseFromCharArray c).2.oscTimeTag = T := by
    rw [heq]
  have hels : (C.oscBundleInitialiseFromCharArray c).2.elements =
      els₁ ++ el :: els₂ := by
    rw [heq]
  have hshr : ∀ x ∈ els₁ ++ el :: els₂, x.1 = OscError.none →
      x.2.length < c.length :=
    fun x hx hx1 => C.shrink c hd x (by rw [hels]; exact hx) hx1
  rw [DC_bundle_ok C Option.none c h0 hm hb hd]
  dsimp only
  rw [htag]
  rw [DE_congr C T c.length ((C.oscBundleInitialiseFromCharArray c).2.elements)
    (els₁ ++ el :: els₂) hels (fun x hx hx1 => C.shrink c hd x hx hx1) hshr]
  rw [DE_append_ok C T c.length els₁ (el :: els₂) hshr hall]
  have hhead := DE_fail_head C T c.length el els₂
    (fun x hx => hshr x (List.mem_append_right _ hx)) hfail
  dsimp only
  rw [hhead.1, hhead.2]
  exact ⟨rfl, rfl⟩

/-- C6: the recursive deconstruction terminates deterministically with
recursion depth bounded by the span length: the fueled mirror of the
recursion, given fuel exceeding the contents size (itself at most the
fixed packet capacity), never exhausts and computes exactly the total
function's unique result. -/
theorem c6_deconstruction_terminates (C : Collabs) (tt : Option OscTimeTag)
    (c : List Nat) (fuel : Nat) (hfuel : c.length < fuel) :
    DeconstructFuel C fuel tt c = some (DeconstructContents C tt c) :=
  DeconstructFuel_adequate C fuel tt c hfuel

/-! ### A concrete collaborator instance and packets for evaluation -/

/-- A concrete message span (leading byte 47). -/
def spanM1 : List Nat := [47, 1]

/-- A concrete message span whose decoding the test collaborator rejects. -/
def spanBad : List Nat := [47, 99]

/-- Another concrete message span. -/
def spanM3 : List Nat := [47, 3]

/-- A bundle span (leading byte 35) holding one message element. -/
def spanA5 : List Nat := [35, 65, 0, 0, 0]

/-- A bundle span holding one bundle element (spanA5). -/
def spanB2 : List Nat := [35, 66, 0, 0, 0, 0, 0, 0, 0, 0]

/-- A bundle span holding three message elements, the second malformed. -/
def spanF : List Nat := [35, 67, 0, 0, 0, 0, 0, 0, 0, 0]

/-- A bundle span holding zero elements. -/
def spanZ : List Nat := [35, 68, 0]

/-- A concrete collaborator behaviour used to evaluate the claims: messages
decode to the sum of their bytes, except spanBad which fails with a
collaborator error; the bundle spans above decode to fixed time tags and
element lists, with every element strictly smaller than its bundle. -/
def testCollabs : Collabs where
  oscMessageInitialiseFromCharArray s :=
    if s = spanBad then (OscError.other 7, ⟨0⟩)
    else (OscError.none, ⟨s.sum⟩)
  oscBundleInitialiseFromCharArray s :=
    if s = spanB2 then (OscError.none, ⟨⟨200⟩, [(OscError.none, spanA5)]⟩)
    else if s = spanA5 then (OscError.none, ⟨⟨100⟩, [(OscError.none, spanM1)]⟩)
    else if s = spanF then (OscError.none, ⟨⟨300⟩,
      [(OscError.none, spanM1), (OscError.none, spanBad),
        (OscError.none, spanM3)]⟩)
    else if s = spanZ then (OscError.none, ⟨⟨400⟩, []⟩)
    else (OscError.none, ⟨⟨0⟩, []⟩)
  oscMessageToCharArray _ := (OscError.other 3, [])
  oscBundleToCharArray s := (OscError.none, s)
  shrink := by
    intro c hc el hel hok
    dsimp only at hel
    split_ifs at hel with h1 h2 h3 h4
    · subst h1
      simp only [List.mem_singleton] at hel
      subst hel
      decide
    · subst h2
      simp only [List.mem_singleton] at hel
      subst hel
      decide
    · subst h3
      simp only [List.mem_cons, List.not_mem_nil, or_false] at hel
      rcases hel with hel | hel | hel <;> subst hel <;> decide
    · subst h4
      simp at hel
    · simp at hel

/-! ### Concrete witnesses -/

/-- Witness for C3: the empty span is rejected with ContentsEmpty and no
handler invocation. -/
theorem c3_witness :
    ([] : List Nat).length = 0 ∧
    DeconstructContents testCollabs Option.none [] =
      (OscError.contentsEmpty, [], []) :=
  ⟨rfl, c3_empty_span_rejected testCollabs Option.none [] rfl⟩

/-- Witness for C4: a packet with no handler is rejected with
CallbackFunctionUndefined and left unchanged. -/
theorem c4_witness :
    (⟨[47, 0], 2, false⟩ : OscPacket).processMessage = false ∧
    OscPacketProcessMessages testCollabs ⟨[47, 0], 2, false⟩ =
      ((OscError.callbackFunctionUndefined, [], []), ⟨[47, 0], 2, false⟩) :=
  ⟨rfl, c4_callback_undefined testCollabs ⟨[47, 0], 2, false⟩ rfl⟩

/-- Witness for C5: the boundary sizes MAX_OSC_PACKET_SIZE and
MAX_OSC_PACKET_SIZE + 1 on a full-capacity buffer. -/
theorem c5_witness :
    (OscPacketInitialiseFromCharArray ⟨List.replicate 1472 0, 0, true⟩
      (List.replicate 1472 5) 1472).1 = OscError.none ∧
    (OscPacketInitialiseFromCharArray ⟨List.replicate 1472 0, 0, true⟩
      (List.replicate 1472 5) 1472).2.size = 1472 ∧
    OscPacketInitialiseFromCharArray ⟨List.replicate 1472 0, 0, true⟩
      (List.replicate 1473 5) 1473 =
      (OscError.packetSizeTooLarge, ⟨List.replicate 1472 0, 0, true⟩) := by
  have hlen : (List.replicate 1472 (0 : Nat)).length = MAX_OSC_PACKET_SIZE := by
    rw [List.length_replicate]
    rfl
  have h1 := c5_init_from_bytes ⟨List.replicate 1472 0, 0, true⟩
    (List.replicate 1472 5) 1472 hlen
    (by rw [List.length_replicate])
  have h2 := c5_init_from_bytes ⟨List.replicate 1472 0, 0, true⟩
    (List.replicate 1473 5) 1473 hlen
    (by rw [List.length_replicate])
  obtain ⟨ha, hb, -, -, -⟩ := h1.1 (by norm_num [MAX_OSC_PACKET_SIZE])
  exact ⟨ha, hb, h2.2 (by norm_num [MAX_OSC_PACKET_SIZE])⟩

/-- Witness for C6: eleven units of fuel suffice for the ten-byte nested
bundle spanB2 and compute the total deconstruction's result. -/
theorem c6_witness :
    spanB2.length < 11 ∧
    DeconstructFuel testCollabs 11 Option.none spanB2 =
      some (DeconstructContents testCollabs Option.none spanB2) :=
  ⟨by decide,
    c6_deconstruction_terminates testCollabs Option.none spanB2 11 (by decide)⟩

/-- Witness for C7: the zero-element bundle spanZ processes successfully
with an empty handler trace. -/
theorem c7_witness :
    (OscPacketProcessMessages testCollabs ⟨spanZ, 3, true⟩).1.1 =
      OscError.none ∧
    (OscPacketProcessMessages testCollabs ⟨spanZ, 3, true⟩).1.2.1 = [] :=
  c7_empty_bundle_succeeds testCollabs ⟨spanZ, 3, true⟩ rfl spanZ ⟨400⟩
    (by decide) (by decide) (by decide) (by decide) (by decide)

/-- Witness for C8: the span the classifier saw while deconstructing the
message spanM1 is spanM1 itself, and it is nonempty. -/
theorem c8_witness :
    spanM1 ∈ (DeconstructContents testCollabs Option.none spanM1).2.2 ∧
    1 ≤ spanM1.length := by
  have hm := DC_msg_ok testCollabs Option.none spanM1 (by decide) (by decide)
    (by decide)
  have hmem : spanM1 ∈
      (DeconstructContents testCollabs Option.none spanM1).2.2 := by
    rw [hm]
    simp
  exact ⟨hmem,
    c8_classifier_spans_nonempty testCollabs Option.none spanM1 spanM1 hmem⟩

/-- Witness for C2: the message inside bundle spanA5 (tag 100) inside
bundle spanB2 (tag 200) is delivered exactly once, with the inner tag 100. -/
theorem c2_witness :
    (OscPacketProcessMessages testCollabs ⟨spanB2, 10, true⟩).1.2.1 =
      [(some ⟨100⟩, ⟨48⟩)] := by
  have h := (c2_nearest_enclosing_tag testCollabs ⟨spanB2, 10, true⟩ rfl
    spanB2 (by decide) (by decide)).2.2 ⟨200⟩ ⟨100⟩ spanA5 spanM1
    (by decide) (by decide) (by decide) (by decide) (by decide) (by decide)
    (by decide) (by decide) (by decide) (by decide)
  rw [h]
  decide

/-- Witness for C1: in bundle spanF the first element's message is
dispatched with tag 300, the malformed second element's collaborator error
is returned, and the third element is never visited. -/
theorem c1_witness :
    (OscPacketProcessMessages testCollabs ⟨spanF, 10, true⟩).1.1 =
      OscError.other 7 ∧
    (OscPacketProcessMessages testCollabs ⟨spanF, 10, true⟩).1.2.1 =
      [(some ⟨300⟩, ⟨48⟩)] := by
  have hm1 := DC_msg_ok testCollabs (some ⟨300⟩) spanM1 (by decide)
    (by decide) (by decide)
  have hbad := DC_msg_err testCollabs (some ⟨300⟩) spanBad (by decide)
    (by decide) (by decide)
  have h := c1_fail_fast testCollabs ⟨spanF, 10, true⟩ rfl spanF (by decide)
    (by decide) (by decide) (by decide) ⟨300⟩ [(OscError.none, spanM1)]
    (OscError.none, spanBad) [(OscError.none, spanM3)] (by decide)
    (by
      intro e he
      simp only [List.mem_singleton] at he
      subst he
      exact ⟨rfl, by rw [hm1]⟩)
    (by
      intro hcon
      have hc2 := hcon.2
      rw [hbad] at hc2
      exact absurd hc2 (by decide))
  have he1 : elemErr testCollabs ⟨300⟩ (OscError.none, spanBad) =
      OscError.other 7 := by
    unfold elemErr
    rw [if_pos rfl]
    show (DeconstructContents testCollabs (some ⟨300⟩) spanBad).1 = _
    rw [hbad]
    decide
  have ht1 : elemTrace testCollabs ⟨300⟩ (OscError.none, spanM1) =
      [(some ⟨300⟩, ⟨48⟩)] := by
    unfold elemTrace
    rw [if_pos rfl]
    show (DeconstructContents testCollabs (some ⟨300⟩) spanM1).2.1 = _
    rw [hm1]
    decide
  have ht2 : elemTrace testCollabs ⟨300⟩ (OscError.none, spanBad) = [] := by
    unfold elemTrace
    rw [if_pos rfl]
    show (DeconstructContents testCollabs (some ⟨300⟩) spanBad).2.1 = _
    rw [hbad]
  refine ⟨h.1.trans he1, h.2.trans ?_⟩
  rw [ht2]
  simp [ht1]
